import Mathlib

set_option maxRecDepth 8192

/-!
Verification of the rule-merge core of `src/analyze_remaster_patterns.py`.

The script loads a JSON catalog of rewrite rules, scans its `rules` list to
build a set of existing `track_name.find` pattern keys, appends every
candidate pattern whose derived key is truthy and not in that set, and — when
at least one rule was added — bumps the minor component of the catalog
version, rewrites the description, and saves.

The embedding below mirrors the Python line by line:
  - `ruleKey`, `existingPatterns`, `shouldAppend`, `mergeStep` embed the
    dedup scan and the append loop (lines 160-177);
  - `pySplitDot`, `pyInt?`, `pyJoinDot` embed Python `str.split('.')`,
    `int(...)` and `'.'.join(...)` (exotic `int` forms such as digit
    underscores or non-ASCII digits are outside the modelled fragment; every
    concrete input used below is plain ASCII digits);
  - `mergeRules` embeds the pure merge (lines 159-189 minus I/O), returning
    `Except` because `version_parts[1]` raises IndexError on a short split
    and `int(...)` raises ValueError on a non-numeric component;
  - `Doc`, `analyze_and_update` embed the full invocation including the
    `if not current_rules: return` truthiness guard (lines 151-155) and the
    `current_rules['rules']` KeyError; prints are I/O and not modelled.
-/

/-- A find/replace pattern spec, the value of a rule's `track_name` or
`album_name` field (data model of the script's rule dicts). -/
structure PatternSpec where
  find : String
  replace : String
deriving DecidableEq

/-- A rule record as the script manipulates it: shared documentation fields
plus at most one of `track_name` / `album_name` (presence modelled by
`Option`). -/
structure Rule where
  name : String
  description : String
  examples : List String
  track_name : Option PatternSpec
  album_name : Option PatternSpec
  requires_confirmation : Bool
deriving DecidableEq

/-- The catalog as seen by the merge: `version` is `Option` because the
script reads it with `current_rules.get('version', '1.0')`, i.e. the JSON
key may be absent. -/
structure CatalogData where
  version : Option String
  description : Option String
  rules : List Rule
deriving DecidableEq

/-- A raw loaded JSON document (top-level dict): each field is `Option`
because the corresponding key may be missing; `otherKeys` records the names
of any additional top-level keys (their values are irrelevant to the
script's control flow, which only tests dict truthiness and reads the three
known keys). -/
structure Doc where
  version : Option String
  description : Option String
  rules : Option (List Rule)
  otherKeys : List String
deriving DecidableEq

/-- Python truthiness of the loaded dict: a dict is truthy iff it has at
least one key (`if not current_rules: return`, line 154). -/
def Doc.truthy (d : Doc) : Bool :=
  d.version.isSome || d.description.isSome || d.rules.isSome || !d.otherKeys.isEmpty

/-- Uncaught Python exceptions the script can die with. -/
inductive PyError where
  | keyError : PyError
  | indexError : PyError
  | valueError : PyError
deriving DecidableEq

/-- Strip leading and trailing whitespace, as `int(str)` does before
parsing. -/
def pyStripWs (cs : List Char) : List Char :=
  ((cs.dropWhile Char.isWhitespace).reverse.dropWhile Char.isWhitespace).reverse

/-- Numeric value of a list of decimal digit characters. -/
def digitsVal (ds : List Char) : Nat :=
  ds.foldl (fun a c => a * 10 + (c.toNat - 48)) 0

/-- A nonempty all-decimal-digit character list. -/
def pyIsIntLit (ds : List Char) : Bool :=
  !ds.isEmpty && ds.all Char.isDigit

/-- Python `int(s)` on a string: strip whitespace, optional sign, decimal
digits; `none` models the ValueError raised otherwise. -/
def pyInt? (s : String) : Option Int :=
  match pyStripWs s.data with
  | '-' :: ds => if pyIsIntLit ds then some (-(digitsVal ds : Int)) else none
  | '+' :: ds => if pyIsIntLit ds then some ((digitsVal ds : Int)) else none
  | ds => if pyIsIntLit ds then some ((digitsVal ds : Int)) else none

/-- Helper of `pySplitDot`: accumulate the current component (reversed) and
cut at each dot. -/
def pySplitDotAux : List Char → List Char → List String
  | [], acc => [String.mk acc.reverse]
  | c :: cs, acc =>
    if c = '.' then String.mk acc.reverse :: pySplitDotAux cs []
    else pySplitDotAux cs (c :: acc)

/-- Python `s.split('.')`: always returns at least one component; the empty
string splits to `[""]`. -/
def pySplitDot (s : String) : List String :=
  pySplitDotAux s.data []

/-- Python `'.'.join(parts)`. -/
def pyJoinDot : List String → String
  | [] => ""
  | [x] => x
  | x :: xs => x ++ "." ++ pyJoinDot xs

/-- The fixed description template written when rules were added
(line 186); the added count is interpolated. -/
def descTemplate (n : Nat) : String :=
  "Comprehensive set of rewrite rules to remove remaster information from track and album names, based on analysis of 600+ real Last.fm tracks. Updated with " ++ toString n ++ " additional patterns."

/-- Identity key of a candidate (lines 168-172): `track_name.find` if a
`track_name` spec is present, else `album_name.find` if present, else none. -/
def ruleKey (r : Rule) : Option String :=
  match r.track_name with
  | some p => some p.find
  | none =>
    match r.album_name with
    | some p => some p.find
    | none => none

/-- The existing-key set (lines 160-163): the `find` strings of exactly the
catalog rules carrying a `track_name` spec; `album_name` rules contribute
nothing. Modelled as a list used only through membership, as the Python set
is. -/
def existingPatterns (rules : List Rule) : List String :=
  rules.filterMap (fun r => r.track_name.map (fun p => p.find))

/-- The append condition (line 174), `if pattern_key and pattern_key not in
existing_patterns`: the key must be present, truthy (a non-empty string) and
not already known. -/
def shouldAppend (existing : List String) (c : Rule) : Bool :=
  match ruleKey c with
  | none => false
  | some k => decide (¬ k = "" ∧ ¬ k ∈ existing)

/-- One iteration of the candidate loop (lines 167-176): append the
candidate unchanged and bump the added count, or leave the state alone. -/
def mergeStep (existing : List String) (acc : List Rule × Nat) (c : Rule) :
    List Rule × Nat :=
  if shouldAppend existing c then (acc.1 ++ [c], acc.2 + 1) else acc

/-- The pure merge (lines 159-189 without I/O): run the candidate loop, then,
when at least one rule was added, re-derive the version from
`current_rules.get('version', '1.0')` — IndexError when the split has fewer
than two components, ValueError when the second component is not an integer —
and rewrite the description. -/
def mergeRules (cat : CatalogData) (cands : List Rule) :
    Except PyError (CatalogData × Nat) :=
  let acc := cands.foldl (mergeStep (existingPatterns cat.rules)) (cat.rules, 0)
  if 0 < acc.2 then
    match pySplitDot (cat.version.getD "1.0") with
    | a :: b :: rest =>
      match pyInt? b with
      | some m =>
        Except.ok ({ version := some (pyJoinDot (a :: toString (m + 1) :: rest)),
                     description := some (descTemplate acc.2),
                     rules := acc.1 }, acc.2)
      | none => Except.error PyError.valueError
    | _ => Except.error PyError.indexError
  else Except.ok ({ cat with rules := acc.1 }, acc.2)

/-- Outcome of one full invocation of `analyze_and_update`. -/
inductive RunResult where
  | earlyReturn : RunResult
  | failed : PyError → RunResult
  | saved : Doc → Nat → RunResult
  | noChange : Doc → RunResult
deriving DecidableEq

/-- The whole entry point (lines 151-192): the falsy-load guard, the
`current_rules['rules']` access, the merge, and the conditional save.
`loaded = none` models both FileNotFoundError (the loader returns `None`)
and a JSON `null` document; a dict document is `some d`. -/
def analyze_and_update (loaded : Option Doc) (cands : List Rule) : RunResult :=
  match loaded with
  | none => RunResult.earlyReturn
  | some d =>
    if d.truthy then
      match d.rules with
      | none => RunResult.failed PyError.keyError
      | some rs =>
        match mergeRules ⟨d.version, d.description, rs⟩ cands with
        | Except.error e => RunResult.failed e
        | Except.ok (cat2, n) =>
          if 0 < n then RunResult.saved ⟨cat2.version, cat2.description, some cat2.rules, d.otherKeys⟩ n
          else RunResult.noChange ⟨cat2.version, cat2.description, some cat2.rules, d.otherKeys⟩
    else RunResult.earlyReturn

instance {ε α : Type} [DecidableEq ε] [DecidableEq α] : DecidableEq (Except ε α) := fun a b =>
  match a, b with
  | Except.error e, Except.error f =>
    if h : e = f then isTrue (by rw [h]) else isFalse (by intro hc; cases hc; exact h rfl)
  | Except.error _, Except.ok _ => isFalse (by intro hc; cases hc)
  | Except.ok _, Except.error _ => isFalse (by intro hc; cases hc)
  | Except.ok x, Except.ok y =>
    if h : x = y then isTrue (by rw [h]) else isFalse (by intro hc; cases hc; exact h rfl)

/-- Skip condition as the spec words it after amendment: the key is absent,
or it is the empty string, or it is already in the existing-key set. -/
def specSkip (existing : List String) (c : Rule) : Prop :=
  ruleKey c = none ∨ ruleKey c = some "" ∨ ∃ k, ruleKey c = some k ∧ k ∈ existing

/-- A concrete candidate carrying only a `track_name` spec with the given
find key. -/
def trackRule (nm k : String) : Rule :=
  ⟨nm, "", [], some ⟨k, "$1"⟩, none, false⟩

/-- A concrete candidate carrying only an `album_name` spec with the given
find key. -/
def albumRule (nm k : String) : Rule :=
  ⟨nm, "", [], none, some ⟨k, "$1"⟩, false⟩

/-- A concrete catalog with the given version string and no rules. -/
def baseCat (v : String) : CatalogData :=
  ⟨some v, none, []⟩

example : pySplitDot "1.2.3" = ["1", "2", "3"] := by decide
example : pySplitDot "" = [""] := by decide
example : pySplitDot "1." = ["1", ""] := by decide
example : pyInt? "2" = some 2 := by decide
example : pyInt? "" = none := by decide
example : pyInt? "x" = none := by decide
example : pyInt? "-3" = some (-3) := by decide
example : pyJoinDot ["1", "3", "3"] = "1.3.3" := by decide
example : mergeRules (baseCat "1.2") [trackRule "r" "X"] =
    Except.ok (⟨some "1.3", some (descTemplate 1), [trackRule "r" "X"]⟩, 1) := by decide
example : mergeRules ⟨none, none, []⟩ [trackRule "r" "X"] =
    Except.ok (⟨some "1.1", some (descTemplate 1), [trackRule "r" "X"]⟩, 1) := by decide
example : mergeRules (baseCat "1.2") [trackRule "r" ""] =
    Except.ok (baseCat "1.2", 0) := by decide

lemma shouldAppend_iff (existing : List String) (c : Rule) :
    shouldAppend existing c = true ↔
      ∃ k, ruleKey c = some k ∧ ¬ k = "" ∧ ¬ k ∈ existing := by
  unfold shouldAppend
  cases hk : ruleKey c with
  | none => simp
  | some k => simp

lemma foldl_mergeStep (ex : List String) (cands : List Rule) :
    ∀ (rs : List Rule) (n : Nat),
      cands.foldl (mergeStep ex) (rs, n) =
        (rs ++ cands.filter (shouldAppend ex),
         n + (cands.filter (shouldAppend ex)).length) := by
  induction cands with
  | nil => intro rs n; simp
  | cons c cs ih =>
    intro rs n
    by_cases h : shouldAppend ex c = true
    · simp only [List.foldl_cons, mergeStep, h, if_true, ih, List.filter_cons, List.length_cons]
      rw [Prod.mk.injEq]
      constructor
      · simp
      · omega
    · simp only [List.foldl_cons, mergeStep, h, if_false, ih, List.filter_cons,
        Bool.false_eq_true, List.length_cons]

lemma mergeRules_eq (cat : CatalogData) (cands : List Rule) :
    mergeRules cat cands =
      (if 0 < (cands.filter (shouldAppend (existingPatterns cat.rules))).length then
        match pySplitDot (cat.version.getD "1.0") with
        | a :: b :: rest =>
          match pyInt? b with
          | some m =>
            Except.ok (⟨some (pyJoinDot (a :: toString (m + 1) :: rest)),
                        some (descTemplate
                          (cands.filter (shouldAppend (existingPatterns cat.rules))).length),
                        cat.rules ++ cands.filter (shouldAppend (existingPatterns cat.rules))⟩,
                       (cands.filter (shouldAppend (existingPatterns cat.rules))).length)
          | none => Except.error PyError.valueError
        | _ => Except.error PyError.indexError
      else Except.ok (cat, 0)) := by
  obtain ⟨v, ds, rs⟩ := cat
  unfold mergeRules
  rw [foldl_mergeStep]
  simp only [Nat.zero_add]
  by_cases h : 0 < (cands.filter (shouldAppend (existingPatterns rs))).length
  · simp only [h, if_true]
  · have h0 : (cands.filter (shouldAppend (existingPatterns rs))).length = 0 := by omega
    have he : cands.filter (shouldAppend (existingPatterns rs)) = [] :=
      List.length_eq_zero.mp h0
    simp only [h, if_false, h0, he, List.append_nil, List.length_nil]

lemma mergeRules_ok_cases (cat : CatalogData) (cands : List Rule) (cat2 : CatalogData)
    (n : Nat) (hok : mergeRules cat cands = Except.ok (cat2, n)) :
    (n = 0 ∧ cat2 = cat ∧
      cands.filter (shouldAppend (existingPatterns cat.rules)) = []) ∨
    (0 < n ∧ n = (cands.filter (shouldAppend (existingPatterns cat.rules))).length ∧
      ∃ a b rest m, pySplitDot (cat.version.getD "1.0") = a :: b :: rest ∧
        pyInt? b = some m ∧
        cat2 = ⟨some (pyJoinDot (a :: toString (m + 1) :: rest)), some (descTemplate n),
                cat.rules ++ cands.filter (shouldAppend (existingPatterns cat.rules))⟩) := by
  rw [mergeRules_eq] at hok
  split at hok
  · rename_i hpos
    right
    split at hok
    · rename_i a b rest hsp
      split at hok
      · rename_i m hb
        simp only [Except.ok.injEq, Prod.mk.injEq] at hok
        obtain ⟨h1, h2⟩ := hok
        subst h2
        exact ⟨hpos, rfl, a, b, rest, m, hsp, hb, h1.symm⟩
      · simp at hok
    · simp at hok
  · rename_i hneg
    left
    simp only [Except.ok.injEq, Prod.mk.injEq] at hok
    obtain ⟨h1, h2⟩ := hok
    have h0 : (cands.filter (shouldAppend (existingPatterns cat.rules))).length = 0 := by
      omega
    exact ⟨h2.symm, h1.symm, List.length_eq_zero.mp h0⟩

lemma existingPatterns_append (xs ys : List Rule) :
    existingPatterns (xs ++ ys) = existingPatterns xs ++ existingPatterns ys := by
  unfold existingPatterns
  exact List.filterMap_append xs ys _

lemma mem_existingPatterns (l : List Rule) (k : String) :
    k ∈ existingPatterns l ↔ ∃ r, r ∈ l ∧ ∃ p, r.track_name = some p ∧ p.find = k := by
  unfold existingPatterns
  rw [List.mem_filterMap]
  constructor
  · rintro ⟨r, hr, hmap⟩
    cases ht : r.track_name with
    | none => simp [ht] at hmap
    | some p =>
      simp only [ht, Option.map_some'] at hmap
      exact ⟨r, hr, p, ht, Option.some.inj hmap⟩
  · rintro ⟨r, hr, p, ht, hf⟩
    exact ⟨r, hr, by simp [ht, hf]⟩

lemma mergeRules_rules (cat : CatalogData) (cands : List Rule) (cat2 : CatalogData)
    (n : Nat) (hok : mergeRules cat cands = Except.ok (cat2, n)) :
    cat2.rules = cat.rules ++ cands.filter (shouldAppend (existingPatterns cat.rules)) := by
  rcases mergeRules_ok_cases cat cands cat2 n hok with
    ⟨_, hcat, hf⟩ | ⟨_, _, a, b, rest, m, _, _, hcat⟩
  · rw [hcat, hf, List.append_nil]
  · rw [hcat]

lemma mergeRules_count (cat : CatalogData) (cands : List Rule) (cat2 : CatalogData)
    (n : Nat) (hok : mergeRules cat cands = Except.ok (cat2, n)) :
    n = (cands.filter (shouldAppend (existingPatterns cat.rules))).length := by
  rcases mergeRules_ok_cases cat cands cat2 n hok with
    ⟨h0, _, hf⟩ | ⟨_, hlen, _⟩
  · rw [h0, hf]; rfl
  · exact hlen

lemma pyJoinDot_pair (x y : String) : pyJoinDot [x, y] = x ++ "." ++ y := rfl

/-- C3: append-only prefix preservation — any successful merge returns a
rules list that is exactly the input rules, in place and unmodified,
followed by the candidates passing the append condition, unchanged and in
their original relative order (a filter of the candidate list). -/
theorem merge_append_only (cat : CatalogData) (cands : List Rule) (cat2 : CatalogData)
    (n : Nat) (hok : mergeRules cat cands = Except.ok (cat2, n)) :
    cat2.rules = cat.rules ++ cands.filter (shouldAppend (existingPatterns cat.rules)) :=
  mergeRules_rules cat cands cat2 n hok

/-- Witness for `merge_append_only` at a concrete catalog and candidate
list. -/
theorem merge_append_only_w :
    mergeRules (baseCat "1.0") [trackRule "r" "X"] =
        Except.ok (⟨some "1.1", some (descTemplate 1), [trackRule "r" "X"]⟩, 1) ∧
      (⟨some "1.1", some (descTemplate 1), [trackRule "r" "X"]⟩ : CatalogData).rules =
        (baseCat "1.0").rules ++
          List.filter (shouldAppend (existingPatterns (baseCat "1.0").rules))
            [trackRule "r" "X"] :=
  ⟨by decide, merge_append_only (baseCat "1.0") [trackRule "r" "X"] _ 1 (by decide)⟩

/-- C5: the existing-key set contains exactly the find strings of catalog
rules carrying a track name spec (album rules contribute nothing), and a
candidate whose derived key is in that set is never among the appended
entries of a successful merge. -/
theorem dedup_key_track_only (cat : CatalogData) (cands : List Rule) (cat2 : CatalogData)
    (n : Nat) (c : Rule) (k : String)
    (hok : mergeRules cat cands = Except.ok (cat2, n))
    (hkey : ruleKey c = some k)
    (hmem : k ∈ existingPatterns cat.rules) :
    (∃ r, r ∈ cat.rules ∧ ∃ p, r.track_name = some p ∧ p.find = k) ∧
      ¬ c ∈ List.drop cat.rules.length cat2.rules := by
  refine ⟨(mem_existingPatterns cat.rules k).mp hmem, ?_⟩
  intro hdrop
  rw [mergeRules_rules cat cands cat2 n hok, List.drop_left] at hdrop
  have hsa : shouldAppend (existingPatterns cat.rules) c = true :=
    (List.mem_filter.mp hdrop).2
  obtain ⟨k2, hk2, _, hnotin⟩ := (shouldAppend_iff _ c).mp hsa
  rw [hkey] at hk2
  exact hnotin (Option.some.inj hk2 ▸ hmem)

/-- Witness for `dedup_key_track_only`: a candidate whose track find key
matches an existing rule's track find key is dropped. -/
theorem dedup_key_track_only_w :
    mergeRules ⟨some "1.0", none, [trackRule "r0" "K"]⟩ [trackRule "c" "K"] =
        Except.ok (⟨some "1.0", none, [trackRule "r0" "K"]⟩, 0) ∧
      ruleKey (trackRule "c" "K") = some "K" ∧
      "K" ∈ existingPatterns (⟨some "1.0", none, [trackRule "r0" "K"]⟩ : CatalogData).rules ∧
      ((∃ r, r ∈ (⟨some "1.0", none, [trackRule "r0" "K"]⟩ : CatalogData).rules ∧
          ∃ p, r.track_name = some p ∧ p.find = "K") ∧
        ¬ trackRule "c" "K" ∈
          List.drop (⟨some "1.0", none, [trackRule "r0" "K"]⟩ : CatalogData).rules.length
            (⟨some "1.0", none, [trackRule "r0" "K"]⟩ : CatalogData).rules) :=
  ⟨by decide, by decide, by decide,
    dedup_key_track_only ⟨some "1.0", none, [trackRule "r0" "K"]⟩ [trackRule "c" "K"]
      ⟨some "1.0", none, [trackRule "r0" "K"]⟩ 0 (trackRule "c" "K") "K"
      (by decide) (by decide) (by decide)⟩

/-- C8: on a successful merge, whenever the added count is positive the
description is exactly the fixed template with the added count
interpolated, and whenever it is zero the whole catalog is returned
unchanged. -/
theorem description_update (cat : CatalogData) (cands : List Rule) (cat2 : CatalogData)
    (n : Nat) (hok : mergeRules cat cands = Except.ok (cat2, n)) :
    (0 < n → cat2.description = some (descTemplate n)) ∧ (n = 0 → cat2 = cat) := by
  rcases mergeRules_ok_cases cat cands cat2 n hok with
    ⟨h0, hcat, _⟩ | ⟨hpos, _, a, b, rest, m, _, _, hcat⟩
  · exact ⟨fun hlt => absurd h0 (by omega), fun _ => hcat⟩
  · exact ⟨fun _ => by rw [hcat], fun h0 => absurd h0 (by omega)⟩

/-- Witness for `description_update` with one added rule. -/
theorem description_update_w :
    mergeRules (baseCat "1.0") [trackRule "r" "X"] =
        Except.ok (⟨some "1.1", some (descTemplate 1), [trackRule "r" "X"]⟩, 1) ∧
      ((0 < 1 →
          (⟨some "1.1", some (descTemplate 1), [trackRule "r" "X"]⟩ : CatalogData).description =
            some (descTemplate 1)) ∧
        (1 = 0 →
          (⟨some "1.1", some (descTemplate 1), [trackRule "r" "X"]⟩ : CatalogData) =
            baseCat "1.0")) :=
  ⟨by decide,
    description_update (baseCat "1.0") [trackRule "r" "X"] _ 1 (by decide)⟩

/-- C4: version monotonicity — for a catalog whose version is a well-formed
two-component MAJOR.MINOR string with integer components, a successful
merge leaves the version identical when nothing was added, and otherwise
outputs the same major component joined with minor + 1. -/
theorem version_minor_bump (cat : CatalogData) (cands : List Rule) (cat2 : CatalogData)
    (n : Nat) (v a b : String) (mj mn : Int)
    (hv : cat.version = some v)
    (hsp : pySplitDot v = [a, b])
    (_hmaj : pyInt? a = some mj)
    (hmin : pyInt? b = some mn)
    (hok : mergeRules cat cands = Except.ok (cat2, n)) :
    (n = 0 → cat2.version = some v) ∧
      (0 < n → cat2.version = some (a ++ "." ++ toString (mn + 1))) := by
  rcases mergeRules_ok_cases cat cands cat2 n hok with
    ⟨h0, hcat, _⟩ | ⟨hpos, _, a2, b2, rest2, m2, hsp2, hm2, hcat⟩
  · refine ⟨fun _ => by rw [hcat, hv], fun hlt => absurd h0 (by omega)⟩
  · refine ⟨fun h0 => absurd h0 (by omega), fun _ => ?_⟩
    rw [hv] at hsp2
    simp only [Option.getD_some] at hsp2
    rw [hsp] at hsp2
    cases hsp2
    rw [hmin] at hm2
    cases hm2
    rw [hcat]
    simp only [pyJoinDot_pair]

/-- Witness for `version_minor_bump` on version 1.2 with one added rule. -/
theorem version_minor_bump_w :
    mergeRules (baseCat "1.2") [trackRule "r" "X"] =
        Except.ok (⟨some "1.3", some (descTemplate 1), [trackRule "r" "X"]⟩, 1) ∧
      ((1 = 0 →
          (⟨some "1.3", some (descTemplate 1), [trackRule "r" "X"]⟩ : CatalogData).version =
            some "1.2") ∧
        (0 < 1 →
          (⟨some "1.3", some (descTemplate 1), [trackRule "r" "X"]⟩ : CatalogData).version =
            some ("1" ++ "." ++ toString ((2 : Int) + 1)))) :=
  ⟨by decide,
    version_minor_bump (baseCat "1.2") [trackRule "r" "X"] _ 1 "1.2" "1" "2" 1 2
      (by decide) (by decide) (by decide) (by decide) (by decide)⟩

/-- C10: when the version string has more than two dot-separated components,
only the second component is incremented; the first and every component
beyond the second are carried into the output unchanged, rejoined with
dots. -/
theorem version_tail_preserved (cat : CatalogData) (cands : List Rule) (cat2 : CatalogData)
    (n : Nat) (v a b : String) (rest : List String) (m : Int)
    (hv : cat.version = some v)
    (hsp : pySplitDot v = a :: b :: rest)
    (hmin : pyInt? b = some m)
    (hpos : 0 < n)
    (hok : mergeRules cat cands = Except.ok (cat2, n)) :
    cat2.version = some (pyJoinDot (a :: toString (m + 1) :: rest)) := by
  rcases mergeRules_ok_cases cat cands cat2 n hok with
    ⟨h0, _, _⟩ | ⟨_, _, a2, b2, rest2, m2, hsp2, hm2, hcat⟩
  · exact absurd h0 (by omega)
  · rw [hv] at hsp2
    simp only [Option.getD_some] at hsp2
    rw [hsp] at hsp2
    cases hsp2
    rw [hmin] at hm2
    cases hm2
    rw [hcat]

/-- Witness for `version_tail_preserved` on version 1.2.3, which becomes
1.3.3. -/
theorem version_tail_preserved_w :
    mergeRules (baseCat "1.2.3") [trackRule "r" "X"] =
        Except.ok (⟨some "1.3.3", some (descTemplate 1), [trackRule "r" "X"]⟩, 1) ∧
      pySplitDot "1.2.3" = ["1", "2", "3"] ∧
      (⟨some "1.3.3", some (descTemplate 1), [trackRule "r" "X"]⟩ : CatalogData).version =
        some (pyJoinDot ["1", toString ((2 : Int) + 1), "3"]) :=
  ⟨by decide, by decide,
    version_tail_preserved (baseCat "1.2.3") [trackRule "r" "X"] _ 1 "1.2.3" "1" "2" ["3"] 2
      (by decide) (by decide) (by decide) (by decide) (by decide)⟩

/-- C1 counterexample: re-running the merge on its own output with the same
candidate list is NOT idempotent. An appended album-name candidate never
enters the existing-key set (which is built from track finds only), so the
second run appends it again: it yields added count 1, not 0, and a changed
catalog. -/
theorem merge_idempotent_cex :
    mergeRules (baseCat "1.0") [albumRule "a" "A"] =
        Except.ok (⟨some "1.1", some (descTemplate 1), [albumRule "a" "A"]⟩, 1) ∧
      mergeRules ⟨some "1.1", some (descTemplate 1), [albumRule "a" "A"]⟩ [albumRule "a" "A"] =
        Except.ok (⟨some "1.2", some (descTemplate 1),
          [albumRule "a" "A", albumRule "a" "A"]⟩, 1) := by
  exact ⟨by decide, by decide⟩

/-- C1 amended: idempotence under re-run holds for candidate lists in which
every candidate carrying an album-name spec also carries a track-name spec
(in particular, all-track-name candidate lists): feeding the first run's
output catalog to a second run with the same candidates yields added count
0 and the catalog unchanged. -/
theorem merge_idempotent_track_candidates (cat : CatalogData) (cands : List Rule)
    (cat1 : CatalogData) (n1 : Nat)
    (hc : ∀ c, c ∈ cands → c.track_name = none → c.album_name = none)
    (hok : mergeRules cat cands = Except.ok (cat1, n1)) :
    mergeRules cat1 cands = Except.ok (cat1, 0) := by
  have hrules := mergeRules_rules cat cands cat1 n1 hok
  have hnil : cands.filter (shouldAppend (existingPatterns cat1.rules)) = [] := by
    rw [List.filter_eq_nil_iff]
    intro c hcmem hsa
    obtain ⟨k, hk, hne, hnotin⟩ := (shouldAppend_iff _ c).mp hsa
    by_cases hold : k ∈ existingPatterns cat.rules
    · exact hnotin (by
        rw [hrules, existingPatterns_append]
        exact List.mem_append_left _ hold)
    · have hsa0 : shouldAppend (existingPatterns cat.rules) c = true :=
        (shouldAppend_iff _ c).mpr ⟨k, hk, hne, hold⟩
      have hcf : c ∈ cands.filter (shouldAppend (existingPatterns cat.rules)) :=
        List.mem_filter.mpr ⟨hcmem, hsa0⟩
      cases htn : c.track_name with
      | none =>
        have han := hc c hcmem htn
        simp [ruleKey, htn, han] at hk
      | some q =>
        have hkq : q.find = k := by
          simp only [ruleKey, htn] at hk
          exact Option.some.inj hk
        apply hnotin
        rw [hrules, existingPatterns_append]
        refine List.mem_append_right _ ?_
        rw [← hkq]
        exact (mem_existingPatterns _ _).mpr ⟨c, hcf, q, htn, rfl⟩
  rw [mergeRules_eq, hnil]
  simp

/-- Witness for `merge_idempotent_track_candidates` on a track-name-only
candidate list. -/
theorem merge_idempotent_track_candidates_w :
    mergeRules (baseCat "1.0") [trackRule "r" "X"] =
        Except.ok (⟨some "1.1", some (descTemplate 1), [trackRule "r" "X"]⟩, 1) ∧
      mergeRules (⟨some "1.1", some (descTemplate 1), [trackRule "r" "X"]⟩ : CatalogData)
          [trackRule "r" "X"] =
        Except.ok (⟨some "1.1", some (descTemplate 1), [trackRule "r" "X"]⟩, 0) :=
  ⟨by decide,
    merge_idempotent_track_candidates (baseCat "1.0") [trackRule "r" "X"] _ 1
      (by
        intro c hcm htn
        rw [List.mem_singleton] at hcm
        subst hcm
        simp [trackRule] at htn)
      (by decide)⟩

/-- C6 counterexample: two distinct candidates sharing the empty string as
their new find key (a key absent from the existing set) are BOTH skipped —
Python string truthiness drops the empty key — so the pair contributes 0,
not 2, to the added count. -/
theorem batch_pair_cex :
    ¬ trackRule "p" "" = trackRule "q" "" ∧
      ruleKey (trackRule "p" "") = some "" ∧
      ruleKey (trackRule "q" "") = some "" ∧
      ¬ "" ∈ existingPatterns (baseCat "1.0").rules ∧
      mergeRules (baseCat "1.0") [trackRule "p" "", trackRule "q" ""] =
        Except.ok (baseCat "1.0", 0) := by
  exact ⟨by decide, by decide, by decide, by decide, by decide⟩

/-- C6 amended: two distinct candidates in the same batch sharing a NONEMPTY
find key that is not in the existing catalog's key set are both appended
and both counted: that pair alone contributes exactly 2 to the added count
of a successful merge. -/
theorem batch_pair_both_added (cat : CatalogData) (l1 l2 l3 : List Rule) (c1 c2 : Rule)
    (k : String) (cat2 : CatalogData) (n : Nat)
    (hk1 : ruleKey c1 = some k) (hk2 : ruleKey c2 = some k) (hne : ¬ k = "")
    (hnew : ¬ k ∈ existingPatterns cat.rules)
    (hok : mergeRules cat (l1 ++ c1 :: l2 ++ c2 :: l3) = Except.ok (cat2, n)) :
    cat2.rules = cat.rules ++
        (l1.filter (shouldAppend (existingPatterns cat.rules)) ++
          (c1 :: l2.filter (shouldAppend (existingPatterns cat.rules)) ++
            c2 :: l3.filter (shouldAppend (existingPatterns cat.rules)))) ∧
      n = (l1.filter (shouldAppend (existingPatterns cat.rules))).length +
          (l2.filter (shouldAppend (existingPatterns cat.rules))).length +
          (l3.filter (shouldAppend (existingPatterns cat.rules))).length + 2 := by
  have hs1 : shouldAppend (existingPatterns cat.rules) c1 = true :=
    (shouldAppend_iff _ _).mpr ⟨k, hk1, hne, hnew⟩
  have hs2 : shouldAppend (existingPatterns cat.rules) c2 = true :=
    (shouldAppend_iff _ _).mpr ⟨k, hk2, hne, hnew⟩
  have hrules := mergeRules_rules cat (l1 ++ c1 :: l2 ++ c2 :: l3) cat2 n hok
  have hcount := mergeRules_count cat (l1 ++ c1 :: l2 ++ c2 :: l3) cat2 n hok
  rw [List.filter_append, List.filter_append, List.filter_cons, List.filter_cons,
    hs1, hs2] at hrules hcount
  simp only [if_true] at hrules hcount
  constructor
  · rw [hrules, List.append_assoc]
  · rw [hcount]
    simp only [List.length_append, List.length_cons]
    omega

/-- Witness for `batch_pair_both_added`: two distinct candidates proposing
the same new key X are both appended and the added count is 2. -/
theorem batch_pair_both_added_w :
    mergeRules (baseCat "1.0") [trackRule "p" "X", trackRule "q" "X"] =
        Except.ok (⟨some "1.1", some (descTemplate 2),
          [trackRule "p" "X", trackRule "q" "X"]⟩, 2) ∧
      (⟨some "1.1", some (descTemplate 2),
          [trackRule "p" "X", trackRule "q" "X"]⟩ : CatalogData).rules =
        (baseCat "1.0").rules ++
          (List.filter (shouldAppend (existingPatterns (baseCat "1.0").rules)) [] ++
            (trackRule "p" "X" ::
                List.filter (shouldAppend (existingPatterns (baseCat "1.0").rules)) [] ++
              trackRule "q" "X" ::
                List.filter (shouldAppend (existingPatterns (baseCat "1.0").rules)) [])) ∧
      2 = (List.filter (shouldAppend (existingPatterns (baseCat "1.0").rules)) []).length +
          (List.filter (shouldAppend (existingPatterns (baseCat "1.0").rules)) []).length +
          (List.filter (shouldAppend (existingPatterns (baseCat "1.0").rules)) []).length + 2 :=
  ⟨by decide,
    batch_pair_both_added (baseCat "1.0") [] [] [] (trackRule "p" "X") (trackRule "q" "X")
      "X" ⟨some "1.1", some (descTemplate 2), [trackRule "p" "X", trackRule "q" "X"]⟩ 2
      (by decide) (by decide) (by decide) (by decide) (by decide)⟩

/-- C7 counterexample: a candidate whose identity key is present (the empty
string) and not in the existing-key set is nonetheless skipped and not
counted, because the Python append guard tests the key's truthiness. -/
theorem skip_append_cex :
    ruleKey (trackRule "p" "") = some "" ∧
      ¬ "" ∈ existingPatterns (baseCat "1.0").rules ∧
      mergeRules (baseCat "1.0") [trackRule "p" ""] = Except.ok (baseCat "1.0", 0) := by
  exact ⟨by decide, by decide, by decide⟩

/-- C7 amended: a candidate is skipped exactly when its identity key is
absent (no track or album spec), or is the empty string, or is already in
the existing-key set; every other candidate is appended unchanged and
counted, so that a successful merge appends exactly the candidates passing
the append condition and reports their number. -/
theorem skip_append_condition (cat : CatalogData) (cands : List Rule) (cat2 : CatalogData)
    (n : Nat) (c : Rule)
    (hok : mergeRules cat cands = Except.ok (cat2, n)) :
    (shouldAppend (existingPatterns cat.rules) c = false ↔
        specSkip (existingPatterns cat.rules) c) ∧
      cat2.rules = cat.rules ++ cands.filter (shouldAppend (existingPatterns cat.rules)) ∧
      n = (cands.filter (shouldAppend (existingPatterns cat.rules))).length := by
  refine ⟨?_, mergeRules_rules cat cands cat2 n hok, mergeRules_count cat cands cat2 n hok⟩
  unfold specSkip
  cases hk : ruleKey c with
  | none => simp [shouldAppend, hk]
  | some k =>
    simp only [shouldAppend, hk, reduceCtorEq, Option.some.injEq, false_or]
    rw [decide_eq_false_iff_not]
    constructor
    · intro h
      by_cases hke : k = ""
      · exact Or.inl hke
      · refine Or.inr ⟨k, rfl, ?_⟩
        by_contra hmem
        exact h ⟨hke, hmem⟩
    · rintro (hke | ⟨k2, hk2, hmem⟩) ⟨hne, hnotin⟩
      · exact hne hke
      · cases hk2
        exact hnotin hmem

/-- Witness for `skip_append_condition` on a concrete merge. -/
theorem skip_append_condition_w :
    mergeRules (baseCat "1.0") [trackRule "r" "X"] =
        Except.ok (⟨some "1.1", some (descTemplate 1), [trackRule "r" "X"]⟩, 1) ∧
      ((shouldAppend (existingPatterns (baseCat "1.0").rules) (albumRule "a" "A") = false ↔
          specSkip (existingPatterns (baseCat "1.0").rules) (albumRule "a" "A")) ∧
        (⟨some "1.1", some (descTemplate 1), [trackRule "r" "X"]⟩ : CatalogData).rules =
          (baseCat "1.0").rules ++
            List.filter (shouldAppend (existingPatterns (baseCat "1.0").rules))
              [trackRule "r" "X"] ∧
        1 = (List.filter (shouldAppend (existingPatterns (baseCat "1.0").rules))
              [trackRule "r" "X"]).length) :=
  ⟨by decide,
    skip_append_condition (baseCat "1.0") [trackRule "r" "X"] _ 1 (albumRule "a" "A")
      (by decide)⟩

/-- C2 counterexample: a catalog with NO version field does not fail — the
code reads the version with a fallback (`current_rules.get('version',
'1.0')`), so a merge that adds a rule silently substitutes 1.0, bumps it to
1.1, and saves. -/
theorem malformed_version_cex :
    (⟨none, none, some [], []⟩ : Doc).version = none ∧
      analyze_and_update (some ⟨none, none, some [], []⟩) [trackRule "r" "X"] =
        RunResult.saved ⟨some "1.1", some (descTemplate 1), some [trackRule "r" "X"], []⟩ 1 := by
  exact ⟨by decide, by decide⟩

/-- C2 amended: when the version field is PRESENT but malformed — its string
splits into fewer than two dot-separated components, or the second
component is not an integer — a merge that would add at least one rule
fails with an uncaught error (IndexError or ValueError standing for
MalformedVersion) before any save; only a missing version field is
defaulted to 1.0. -/
theorem malformed_version_fatal (d : Doc) (cands : List Rule) (v : String) (rs : List Rule)
    (hv : d.version = some v)
    (hrs : d.rules = some rs)
    (hbad : (pySplitDot v).length ≤ 1 ∨
      ∃ a b rest, pySplitDot v = a :: b :: rest ∧ pyInt? b = none)
    (hadd : 0 < (cands.filter (shouldAppend (existingPatterns rs))).length) :
    ∃ e, analyze_and_update (some d) cands = RunResult.failed e := by
  have hmerge : ∃ e, mergeRules ⟨d.version, d.description, rs⟩ cands = Except.error e := by
    rw [mergeRules_eq]
    simp only [hv, Option.getD_some]
    rw [if_pos hadd]
    rcases hbad with hlen | ⟨a, b, rest, hsp, hb⟩
    · cases hsp2 : pySplitDot v with
      | nil => exact ⟨PyError.indexError, rfl⟩
      | cons a tl =>
        cases tl with
        | nil => exact ⟨PyError.indexError, rfl⟩
        | cons b rest =>
          exfalso
          rw [hsp2] at hlen
          simp at hlen
    · refine ⟨PyError.valueError, ?_⟩
      rw [hsp]
      simp only [hb]
  obtain ⟨e, he⟩ := hmerge
  refine ⟨e, ?_⟩
  have htr : d.truthy = true := by
    unfold Doc.truthy
    rw [hv]
    simp
  unfold analyze_and_update
  simp only [htr, if_true, hrs, he]

/-- Witness for `malformed_version_fatal`: version string 1 (a single
component) with a genuinely new candidate fails rather than saving. -/
theorem malformed_version_fatal_w :
    (pySplitDot "1").length ≤ 1 ∧
      0 < (List.filter (shouldAppend (existingPatterns [])) [trackRule "r" "X"]).length ∧
      ∃ e, analyze_and_update (some ⟨some "1", none, some [], []⟩) [trackRule "r" "X"] =
        RunResult.failed e :=
  ⟨by decide, by decide,
    malformed_version_fatal ⟨some "1", none, some [], []⟩ [trackRule "r" "X"] "1" []
      (by decide) (by decide) (Or.inl (by decide)) (by decide)⟩

/-- C9: a load result that is falsy — the not-found or null signal, or any
document with no keys at all — makes the invocation return before the
merge: the outcome is the early return, with no rule scan, no append, no
version change and no save. -/
theorem falsy_load_aborts (loaded : Option Doc) (cands : List Rule)
    (h : loaded = none ∨ ∃ d, loaded = some d ∧ d.truthy = false) :
    analyze_and_update loaded cands = RunResult.earlyReturn := by
  rcases h with h | ⟨d, h, ht⟩
  · rw [h]
    rfl
  · rw [h]
    unfold analyze_and_update
    simp [ht]

/-- Witness for `falsy_load_aborts` on the empty document (a dict with no
keys, which is falsy in Python). -/
theorem falsy_load_aborts_w :
    (⟨none, none, none, []⟩ : Doc).truthy = false ∧
      analyze_and_update (some ⟨none, none, none, []⟩) [trackRule "r" "X"] =
        RunResult.earlyReturn :=
  ⟨by decide,
    falsy_load_aborts (some ⟨none, none, none, []⟩) [trackRule "r" "X"]
      (Or.inr ⟨⟨none, none, none, []⟩, rfl, by decide⟩)⟩
